import Mathlib

/-!
# Verification of the Vault API server (`src/server.js`)

Shallow embedding of the request-handling and backup-triggering layer of the
Express/Mongoose vault service.  The MongoDB collection is modelled as a
`List VaultEntry`; each handler is a pure function from its inputs (route
parameters, parsed JSON body, the timestamps its `Date.now()` calls read, a
flag for filesystem success of the backup write) and the current store to a
result holding the HTTP status, the response payload, the new store, and the
backup files written.

Modelling conventions, each tied to a line of `server.js`:
* Mongo `_id` values are modelled as `Nat`; the route parameter `:id` arrives
  as a `String` and `Vault.findById` first casts it to an ObjectId, throwing a
  `CastError` on a malformed id (caught by the handler catch block, yielding
  500).  `parseId` models that cast (decimal numerals standing in for the
  ObjectId format): parse failure is the malformed-id case.
* `Date.now()` millisecond readings are `Nat` parameters; distinct calls in
  the source are distinct parameters (e.g. the schema default at document
  construction and the pre-save hook are two separate reads).
* `fs.writeFile` in `createBackup` (line 59) may fail; the Boolean `fsOk`
  says whether it succeeds.  Store operations themselves are assumed to
  succeed (the claims under study are not about `StoreError` paths).
* JS truthiness on strings (`if(!q)`, `category || "general"`) is modelled
  explicitly: `none` (undefined) and `some ""` are both falsy.
-/

/-- A vault entry, after `vaultSchema` (server.js lines 28-35).
`name` carries the value after the mongoose `trim: true` setter. -/
structure VaultEntry where
  id : Nat
  name : String
  content : String
  category : String
  tags : List String
  createdAt : Nat
  updatedAt : Nat
deriving DecidableEq, Repr

/-- The JSON body of a POST / PUT request, fields as express parses them:
`none` models a field absent from the body (JS `undefined`). -/
structure ReqBody where
  name : Option String
  content : Option String
  category : Option String
  tags : Option (List String)
deriving DecidableEq, Repr

/-- The `trigger` payload passed to `createBackup` (`{name, id}`); the `name`
slot is the raw body value, hence possibly absent. -/
structure Trigger where
  name : Option String
  id : Nat
deriving DecidableEq, Repr

/-- The JSON document `createBackup` writes (server.js line 58): timestamp,
operation label, trigger payload, the full collection at call time, count. -/
structure Backup where
  timestamp : Nat
  operation : String
  trigger : Option Trigger
  data : List VaultEntry
  count : Nat
deriving DecidableEq, Repr

/-- The mongoose cast of the `:id` route parameter to an ObjectId; `none` is
the `CastError` case (malformed id).  ObjectId syntax is stood in for by
decimal-numeral syntax: what matters to the claims is only that malformed
ids exist and make `findById` throw. -/
def parseId (s : String) : Option Nat :=
  if s.data ≠ [] ∧ s.data.all (fun c => c.isDigit) then
    some (s.data.foldl (fun n c => n * 10 + (c.toNat - 48)) 0)
  else none

/-- `Vault.findById(idStr)`: `Except.error ()` models the thrown `CastError`,
`Except.ok none` a well-formed id matching no document. -/
def findById (idStr : String) (store : List VaultEntry) :
    Except Unit (Option VaultEntry) :=
  match parseId idStr with
  | none => .error ()
  | some i => .ok (store.find? (fun e => e.id == i))

/-- `createBackup(operation, data)` (server.js lines 52-63): reads the whole
collection, builds the snapshot document and writes it to a fresh file.  If
the filesystem write fails (`fsOk = false`) the error is rethrown
(`throw err`, line 62) and no backup file exists. -/
def createBackup (now : Nat) (operation : String) (trigger : Option Trigger)
    (fsOk : Bool) (store : List VaultEntry) : Except Unit Backup :=
  if fsOk then
    .ok { timestamp := now, operation := operation, trigger := trigger,
          data := store, count := store.length }
  else
    .error ()

/-- Result of a mutating handler: HTTP status, response entry payload (the
`data` field, when the response carries one entry), the store afterwards,
and the backup files written during the request. -/
structure MutResult where
  status : Nat
  body : Option VaultEntry
  store : List VaultEntry
  backups : List Backup
deriving DecidableEq, Repr

/-- JS string truthiness for an express-parsed value: `undefined` and `""`
are falsy. -/
def strTruthy : Option String → Bool
  | none => false
  | some s => s != ""

/-- `DELETE /api/vault/:id` (server.js lines 173-181): find the entry
(404 when a well-formed id matches nothing, 500 on `CastError`), then
`createBackup("DELETE", {name, id})`, then `findByIdAndDelete`.  A backup
failure is caught and yields 500 with the delete never executed. -/
def deleteHandler (idStr : String) (now : Nat) (fsOk : Bool)
    (store : List VaultEntry) : MutResult :=
  match findById idStr store with
  | .error _ => { status := 500, body := none, store := store, backups := [] }
  | .ok none => { status := 404, body := none, store := store, backups := [] }
  | .ok (some entry) =>
    match createBackup now "DELETE" (some { name := some entry.name, id := entry.id })
        fsOk store with
    | .error _ => { status := 500, body := none, store := store, backups := [] }
    | .ok bk =>
      { status := 200, body := some entry,
        store := store.eraseP (fun e => e.id == entry.id), backups := [bk] }

/-- Whitespace trimming of both ends, as the mongoose `trim: true` setter
(JS `String.prototype.trim`) performs on `name`. -/
def strTrim (s : String) : String :=
  ⟨((s.data.dropWhile Char.isWhitespace).reverse.dropWhile Char.isWhitespace).reverse⟩

/-- The document built by `new Vault({name, content, category: category || "general",
tags: tags||[]})` (line 137) after the `trim` setter, the schema defaults
(`createdAt`, `updatedAt` both default to `Date.now`, read at construction
time `tC`), and the pre-save hook that overwrites `updatedAt` with a
second `Date.now()` reading `tS` (lines 37-40). -/
def savedEntry (body : ReqBody) (newId tC tS : Nat) : VaultEntry :=
  { id := newId,
    name := strTrim (body.name.getD ""),
    content := body.content.getD "",
    category := if strTruthy body.category then body.category.getD "general" else "general",
    tags := body.tags.getD [],
    createdAt := tC,
    updatedAt := tS }

/-- `POST /api/vault` (server.js lines 133-145): reject falsy `name`/`content`
with 400; otherwise construct and save the document (mongoose `required`
validation rejects a whitespace-only name after trimming, caught as 500);
then `createBackup("CREATE", {name, id})` — whose failure is caught as 500
with the already-saved entry left in the store. -/
def createHandler (body : ReqBody) (newId tC tS : Nat) (fsOk : Bool)
    (store : List VaultEntry) : MutResult :=
  if !(strTruthy body.name && strTruthy body.content) then
    { status := 400, body := none, store := store, backups := [] }
  else
    let e := savedEntry body newId tC tS
    if e.name = "" ∨ e.content = "" then
      { status := 500, body := none, store := store, backups := [] }
    else
      let store' := store ++ [e]
      match createBackup tS "CREATE" (some { name := body.name, id := newId })
          fsOk store' with
      | .error _ => { status := 500, body := none, store := store', backups := [] }
      | .ok bk => { status := 201, body := some e, store := store', backups := [bk] }

/-- The update validators run by `findByIdAndUpdate(..., {runValidators:true})`
(line 166): a provided `name` must be non-empty after `trim`, a provided
`content` non-empty; absent (`undefined`) fields are stripped from the
update and not validated. -/
def updateValid (body : ReqBody) : Bool :=
  (match body.name with
   | none => true
   | some s => strTrim s != "") &&
  (match body.content with
   | none => true
   | some c => c != "")

/-- The `$set` document of the update (line 166): each provided field
overwrites the old value (the `name` through the `trim` setter), and
`updatedAt` is overwritten with the `Date.now()` reading `tU`; `id` and
`createdAt` are not part of the update. -/
def applyUpdateFields (body : ReqBody) (tU : Nat) (e : VaultEntry) : VaultEntry :=
  { e with
    name := match body.name with
            | some s => strTrim s
            | none => e.name,
    content := body.content.getD e.content,
    category := body.category.getD e.category,
    tags := body.tags.getD e.tags,
    updatedAt := tU }

/-- `PUT /api/vault/:id` (server.js lines 163-171): cast the id (CastError →
500), validate the update (ValidationError → 500), apply it to the matching
document (404 when none), then `createBackup("UPDATE", {name, id})` — whose
failure is caught as 500 with the update already persisted. -/
def updateHandler (idStr : String) (body : ReqBody) (tU : Nat) (fsOk : Bool)
    (store : List VaultEntry) : MutResult :=
  match parseId idStr with
  | none => { status := 500, body := none, store := store, backups := [] }
  | some i =>
    if !updateValid body then
      { status := 500, body := none, store := store, backups := [] }
    else
      match store.find? (fun e => e.id == i) with
      | none => { status := 404, body := none, store := store, backups := [] }
      | some e =>
        let e' := applyUpdateFields body tU e
        let store' := store.map (fun x => if x.id == i then applyUpdateFields body tU x else x)
        match createBackup tU "UPDATE" (some { name := body.name, id := e.id })
            fsOk store' with
        | .error _ => { status := 500, body := none, store := store', backups := [] }
        | .ok bk => { status := 200, body := some e', store := store', backups := [bk] }

/-- Result of a read-only collection handler: HTTP status and the `data`
array of the JSON response. -/
structure ListResult where
  status : Nat
  data : List VaultEntry
deriving DecidableEq, Repr

/-- One token of the pattern `new RegExp(q, "i")` is compiled from:
`.` is the any-character wildcard, every other character a literal
(lower-cased, modelling the `"i"` flag).  JS regexes have further
metacharacters; this model is faithful for patterns that contain none of
them or only `.`, which covers every pattern the theorems below use. -/
inductive RTok where
  | dot
  | lit (c : Char)
deriving DecidableEq, Repr

/-- Compile the query string into pattern tokens. -/
def tokensOf (p : String) : List RTok :=
  p.data.map (fun c => if c = '.' then RTok.dot else RTok.lit c.toLower)

/-- Does one token match one (lower-cased) character? -/
def tokHead : RTok → Char → Bool
  | RTok.dot, _ => true
  | RTok.lit l, c => l == c

/-- Does the token list match a leading segment of the character list? -/
def tokStart : List RTok → List Char → Bool
  | [], _ => true
  | _ :: _, [] => false
  | t :: ts, c :: cs => tokHead t c && tokStart ts cs

/-- Does the token list match anywhere in the character list (unanchored
regex `test`)? -/
def tokScan (ts : List RTok) : List Char → Bool
  | [] => tokStart ts []
  | c :: cs => tokStart ts (c :: cs) || tokScan ts cs

/-- `new RegExp(q, "i").test(s)`, for the modelled pattern fragment: both
sides lower-cased, pattern matched unanchored. -/
def regexITest (q s : String) : Bool :=
  tokScan (tokensOf q) (s.data.map Char.toLower)

/-- A document matches the search `$or` (line 100) when the regex matches
`name`, `content`, `category`, or — MongoDB array-field semantics — some
element of `tags`. -/
def entryMatchesRegex (q : String) (e : VaultEntry) : Bool :=
  regexITest q e.name || regexITest q e.content || regexITest q e.category ||
    e.tags.any (fun t => regexITest q t)

/-- `GET /api/vault/search` (server.js lines 95-106): falsy `q` (absent or
empty) is a 400; otherwise the entries whose fields match the regex. -/
def searchHandler (q : Option String) (store : List VaultEntry) : ListResult :=
  if !strTruthy q then { status := 400, data := [] }
  else { status := 200, data := store.filter (fun e => entryMatchesRegex (q.getD "") e) }

/-- Does the leading segment of the second list equal the first list? -/
def litStart : List Char → List Char → Bool
  | [], _ => true
  | _ :: _, [] => false
  | a :: as, b :: bs => a == b && litStart as bs

/-- Does the first list occur as a contiguous run of the second? -/
def litSub (p : List Char) : List Char → Bool
  | [] => litStart p []
  | c :: cs => litStart p (c :: cs) || litSub p cs

/-- Modelled from the spec: "case-insensitive substring match", every
character of the query taken literally. -/
def substrITest (q s : String) : Bool :=
  litSub (q.data.map Char.toLower) (s.data.map Char.toLower)

/-- Modelled from the spec: an entry matches when some of `name`, `content`,
`category`, or an element of `tags` contains the query as a
case-insensitive literal substring. -/
def entryMatchesSub (q : String) (e : VaultEntry) : Bool :=
  substrITest q e.name || substrITest q e.content || substrITest q e.category ||
    e.tags.any (fun t => substrITest q t)

/-- The set of characters that `new RegExp` does not take literally. -/
def regexMeta (c : Char) : Bool :=
  c == '.' || c == '*' || c == '+' || c == '?' || c == '^' || c == '$' ||
  c == '(' || c == ')' || c == '[' || c == ']' || c == '\x7b' || c == '\x7d' ||
  c == '|' || c == '\\'

/-- The comparison by which MongoDB `.sort({[sortBy]: sortOrder})` (line 124)
orders: the selected field, ascending or descending. -/
def entryLE (field : String) (asc : Bool) (a b : VaultEntry) : Prop :=
  if field = "name" then
    (if asc then a.name ≤ b.name else b.name ≤ a.name)
  else
    (if asc then a.createdAt ≤ b.createdAt else b.createdAt ≤ a.createdAt)

instance (field : String) (asc : Bool) : DecidableRel (entryLE field asc) := by
  intro a b
  unfold entryLE
  split_ifs <;> infer_instance

instance (field : String) (asc : Bool) : IsTotal VaultEntry (entryLE field asc) where
  total a b := by
    unfold entryLE
    split_ifs <;> exact le_total _ _

instance (field : String) (asc : Bool) : IsTrans VaultEntry (entryLE field asc) where
  trans a b c := by
    unfold entryLE
    split_ifs <;> intro h1 h2 <;>
      first
      | exact le_trans h1 h2
      | exact le_trans h2 h1

/-- The store sorted as MongoDB would return it.  MongoDB does not promise a
particular algorithm; any sort agreeing with the comparator is a valid
model, and insertion sort is used here. -/
def mongoSort (field : String) (asc : Bool) (store : List VaultEntry) : List VaultEntry :=
  List.insertionSort (entryLE field asc) store

/-- Is the parameter value present, non-empty, and outside the two allowed
values?  (`if(by){...else 400}`, lines 114-123: a falsy value skips the
whole check and keeps the default.) -/
def badParam (v : Option String) (a b : String) : Bool :=
  strTruthy v && !(v == some a) && !(v == some b)

/-- `GET /api/vault/sort` (server.js lines 109-130): a truthy `by` outside
`{name, date}` or a truthy `order` outside `{asc, desc}` is a 400; otherwise
sort by `name` exactly when `by === "name"` (else `createdAt`), ascending
exactly when `order === "asc"`. -/
def sortHandler (byQ orderQ : Option String) (store : List VaultEntry) : ListResult :=
  if badParam byQ "name" "date" then { status := 400, data := [] }
  else if badParam orderQ "asc" "desc" then { status := 400, data := [] }
  else
    { status := 200,
      data := mongoSort (if byQ = some "name" then "name" else "createdAt")
        (orderQ = some "asc") store }

/-- `GET /api/vault` (server.js lines 147-152): all entries, newest first. -/
def listHandler (store : List VaultEntry) : ListResult :=
  { status := 200, data := mongoSort "createdAt" false store }

/-- `GET /api/vault/:id` (server.js lines 155-161). -/
def getByIdHandler (idStr : String) (store : List VaultEntry) : Nat × Option VaultEntry :=
  match findById idStr store with
  | .error _ => (500, none)
  | .ok none => (404, none)
  | .ok (some e) => (200, some e)

/-- Outcome of process startup. -/
inductive StartOutcome where
  | running (backupsDirReady : Bool)
  | exited
deriving DecidableEq, Repr

/-- `ensureBackupsDir` (server.js lines 46-49): `fs.mkdir` may fail
(`mkdirOk = false`), but the surrounding `catch` only logs the error, so
the function always returns normally; the directory exists afterwards only
when the mkdir succeeded. -/
def ensureBackupsDir (mkdirOk : Bool) : Except Unit Bool :=
  .ok mkdirOk

/-- `startServer` (server.js lines 255-260): only an exception propagating
out of `await ensureBackupsDir()` reaches the `catch` whose
`process.exit(1)` would end the process. -/
def startServer (mkdirOk : Bool) : StartOutcome :=
  match ensureBackupsDir mkdirOk with
  | .error _ => .exited
  | .ok ready => .running ready

/-- One mutating API request with the non-deterministic inputs it reads
(fresh id, clock readings, filesystem outcome). -/
inductive ApiOp where
  | create (body : ReqBody) (newId tC tS : Nat) (fsOk : Bool)
  | update (idStr : String) (body : ReqBody) (tU : Nat) (fsOk : Bool)
  | del (idStr : String) (now : Nat) (fsOk : Bool)
deriving DecidableEq, Repr

/-- The store after one request. -/
def applyOp : ApiOp → List VaultEntry → List VaultEntry
  | .create body newId tC tS fsOk, s => (createHandler body newId tC tS fsOk s).store
  | .update idStr body tU fsOk, s => (updateHandler idStr body tU fsOk s).store
  | .del idStr now fsOk, s => (deleteHandler idStr now fsOk s).store

/-- The clock readings of a request are no older than what the store already
contains: `Date.now()` is non-decreasing across the two reads of a create
and since the creation of every stored entry. -/
def OpTimeOk : ApiOp → List VaultEntry → Prop
  | .create _ _ tC tS _, _ => tC ≤ tS
  | .update _ _ tU _, s => ∀ e ∈ s, e.createdAt ≤ tU
  | .del _ _ _, _ => True

instance : (o : ApiOp) → (s : List VaultEntry) → Decidable (OpTimeOk o s)
  | .create _ _ _ _ _, _ => inferInstanceAs (Decidable (_ ≤ _))
  | .update _ _ _ _, _ => inferInstanceAs (Decidable (∀ _ ∈ _, _))
  | .del _ _ _, _ => inferInstanceAs (Decidable True)

/-- The store after a sequence of requests. -/
def applySeq : List ApiOp → List VaultEntry → List VaultEntry
  | [], s => s
  | o :: os, s => applySeq os (applyOp o s)

/-- Every request of the sequence satisfies `OpTimeOk` in the state it runs
in. -/
def SeqTimeOk : List ApiOp → List VaultEntry → Prop
  | [], _ => True
  | o :: os, s => OpTimeOk o s ∧ SeqTimeOk os (applyOp o s)

instance instDecSeqTimeOk : (ops : List ApiOp) → (s : List VaultEntry) →
    Decidable (SeqTimeOk ops s)
  | [], _ => .isTrue trivial
  | o :: os, s =>
    have : Decidable (SeqTimeOk os (applyOp o s)) := instDecSeqTimeOk os _
    inferInstanceAs (Decidable (_ ∧ _))

/-- The data-model invariant of C5 for one entry: `name` and `content`
non-empty, `updatedAt ≥ createdAt`. -/
def entryWF (e : VaultEntry) : Prop :=
  e.name ≠ "" ∧ e.content ≠ "" ∧ e.createdAt ≤ e.updatedAt

instance (e : VaultEntry) : Decidable (entryWF e) :=
  inferInstanceAs (Decidable (_ ∧ _ ∧ _))

/-- The data-model invariant of C5 for the whole store. -/
def StoreInv (store : List VaultEntry) : Prop :=
  ∀ e ∈ store, entryWF e

instance (store : List VaultEntry) : Decidable (StoreInv store) :=
  inferInstanceAs (Decidable (∀ _ ∈ _, _))

/-- C1: for a resolving id, the snapshot is taken from the pre-delete store
(so it still contains the entry), and a failed backup aborts the delete with
500, the store unchanged. -/
theorem delete_backup_before_delete (idStr : String) (now : Nat)
    (store : List VaultEntry) (e : VaultEntry)
    (h : findById idStr store = .ok (some e)) :
    (deleteHandler idStr now false store =
      { status := 500, body := none, store := store, backups := [] }) ∧
    e ∈ store ∧
    (deleteHandler idStr now true store =
      { status := 200, body := some e,
        store := store.eraseP (fun x => x.id == e.id),
        backups := [{ timestamp := now, operation := "DELETE",
                      trigger := some { name := some e.name, id := e.id },
                      data := store, count := store.length }] }) := by
  refine ⟨?_, ?_, ?_⟩
  · simp [deleteHandler, h, createBackup]
  · rcases hi : parseId idStr with _ | i
    · simp [findById, hi] at h
    · simp [findById, hi] at h
      exact List.mem_of_find?_eq_some h
  · simp [deleteHandler, h, createBackup]

theorem delete_backup_before_delete_witness :
    deleteHandler "7" 3 false [⟨7, "a", "b", "general", [], 0, 0⟩] =
      { status := 500, body := none,
        store := [⟨7, "a", "b", "general", [], 0, 0⟩], backups := [] } :=
  (delete_backup_before_delete "7" 3 [⟨7, "a", "b", "general", [], 0, 0⟩]
    ⟨7, "a", "b", "general", [], 0, 0⟩ (by rfl)).1

/-- C9 counterexample: a malformed id never resolves to an existing entry,
yet the handler answers 500 (mongoose `CastError` caught at line 180), not
the 404 the claim requires for every non-resolving id. -/
theorem delete_malformed_id_500_not_404 :
    deleteHandler "x" 0 true [] =
      { status := 500, body := none, store := [], backups := [] } ∧
    ((deleteHandler "x" 0 true []).status == 404) = false := by
  decide

/-- C9 amended: a well-formed id matching no entry gives 404 with no backup
and an unchanged store; a malformed id gives 500, likewise with no backup
and no change. -/
theorem delete_nonexistent_404_no_backup (idStr : String) (now : Nat)
    (fsOk : Bool) (store : List VaultEntry) :
    (findById idStr store = .ok none →
      deleteHandler idStr now fsOk store =
        { status := 404, body := none, store := store, backups := [] }) ∧
    (findById idStr store = .error () →
      deleteHandler idStr now fsOk store =
        { status := 500, body := none, store := store, backups := [] }) := by
  constructor
  · intro h
    simp [deleteHandler, h]
  · intro h
    simp [deleteHandler, h]

theorem delete_nonexistent_404_no_backup_witness :
    deleteHandler "5" 0 true [⟨7, "a", "b", "general", [], 0, 0⟩] =
      { status := 404, body := none,
        store := [⟨7, "a", "b", "general", [], 0, 0⟩], backups := [] } ∧
    deleteHandler "q" 0 true [⟨7, "a", "b", "general", [], 0, 0⟩] =
      { status := 500, body := none,
        store := [⟨7, "a", "b", "general", [], 0, 0⟩], backups := [] } :=
  ⟨(delete_nonexistent_404_no_backup "5" 0 true
      [⟨7, "a", "b", "general", [], 0, 0⟩]).1 (by rfl),
   (delete_nonexistent_404_no_backup "q" 0 true
      [⟨7, "a", "b", "general", [], 0, 0⟩]).2 (by rfl)⟩

/-- C4 counterexample: `createdAt` defaults at document construction and the
pre-save hook overwrites `updatedAt` with a second, later `Date.now()`
reading; when the clock advances between the two reads (here 0 → 1) the 201
response carries `createdAt ≠ updatedAt`. -/
theorem create_createdAt_ne_updatedAt_cex :
    (createHandler ⟨some "a", some "b", none, none⟩ 1 0 1 true []).status = 201 ∧
    ((createHandler ⟨some "a", some "b", none, none⟩ 1 0 1 true []).body.map
        (fun e => e.createdAt == e.updatedAt)) = some false := by
  decide

/-- C4 amended: for every valid create, the 201 entry has `createdAt = tC`
(construction-time reading) and `updatedAt = tS` (save-time reading), so
`createdAt ≤ updatedAt`, with equality exactly when the clock did not
advance between the two reads. -/
theorem create_timestamps_nearby (body : ReqBody) (newId tC tS : Nat)
    (store : List VaultEntry) (nm ct : String)
    (hname : body.name = some nm) (hnm : strTrim nm ≠ "")
    (hcont : body.content = some ct) (hct : ct ≠ "")
    (ht : tC ≤ tS) :
    (savedEntry body newId tC tS).createdAt = tC ∧
    (savedEntry body newId tC tS).updatedAt = tS ∧
    (savedEntry body newId tC tS).createdAt ≤ (savedEntry body newId tC tS).updatedAt ∧
    (tC = tS →
      (savedEntry body newId tC tS).createdAt = (savedEntry body newId tC tS).updatedAt) ∧
    createHandler body newId tC tS true store =
      { status := 201, body := some (savedEntry body newId tC tS),
        store := store ++ [savedEntry body newId tC tS],
        backups := [{ timestamp := tS, operation := "CREATE",
                      trigger := some { name := body.name, id := newId },
                      data := store ++ [savedEntry body newId tC tS],
                      count := (store ++ [savedEntry body newId tC tS]).length }] } := by
  have hnm0 : nm ≠ "" := by
    intro h
    subst h
    exact hnm (by decide)
  refine ⟨rfl, rfl, ht, fun h => h, ?_⟩
  simp only [createHandler, strTruthy, hname, hcont, savedEntry, Option.getD_some,
    createBackup, if_true]
  simp [hnm0, hct, hnm]

theorem create_timestamps_nearby_witness :
    (savedEntry ⟨some "a", some "b", none, none⟩ 1 0 0).createdAt =
      (savedEntry ⟨some "a", some "b", none, none⟩ 1 0 0).updatedAt :=
  (create_timestamps_nearby ⟨some "a", some "b", none, none⟩ 1 0 0 [] "a" "b" rfl
    (by decide) rfl (by decide) (Nat.le_refl 0)).2.2.2.1 rfl

/-- C10: when the backup write fails after the save, the create answers 500
but the saved entry stays in the store, shows up in a subsequent list-all,
and is returned by get-by-id. -/
theorem create_backup_failure_entry_persists (body : ReqBody) (idStr : String)
    (newId tC tS : Nat) (store : List VaultEntry) (nm ct : String)
    (hname : body.name = some nm) (hnm : strTrim nm ≠ "")
    (hcont : body.content = some ct) (hct : ct ≠ "")
    (hid : parseId idStr = some newId)
    (hfresh : ∀ x ∈ store, (x.id == newId) = false) :
    createHandler body newId tC tS false store =
      { status := 500, body := none,
        store := store ++ [savedEntry body newId tC tS], backups := [] } ∧
    savedEntry body newId tC tS ∈ (listHandler (store ++ [savedEntry body newId tC tS])).data ∧
    getByIdHandler idStr (store ++ [savedEntry body newId tC tS]) =
      (200, some (savedEntry body newId tC tS)) := by
  have hnm0 : nm ≠ "" := by
    intro h
    subst h
    exact hnm (by decide)
  refine ⟨?_, ?_, ?_⟩
  · simp only [createHandler, strTruthy, hname, hcont, savedEntry, Option.getD_some,
      createBackup, if_false]
    simp [hnm0, hct, hnm]
  · simp [listHandler, mongoSort, List.mem_insertionSort]
  · have hnone : store.find? (fun e => e.id == newId) = none :=
      List.find?_eq_none.mpr (by
        intro x hx
        simp [hfresh x hx])
    simp [getByIdHandler, findById, hid, List.find?_append, hnone, savedEntry]

theorem create_backup_failure_entry_persists_witness :
    createHandler ⟨some "a", some "b", none, none⟩ 1 0 0 false [] =
      { status := 500, body := none,
        store := [savedEntry ⟨some "a", some "b", none, none⟩ 1 0 0], backups := [] } ∧
    getByIdHandler "1" [savedEntry ⟨some "a", some "b", none, none⟩ 1 0 0] =
      (200, some (savedEntry ⟨some "a", some "b", none, none⟩ 1 0 0)) :=
  ⟨(create_backup_failure_entry_persists ⟨some "a", some "b", none, none⟩ "1" 1 0 0 []
      "a" "b" rfl (by decide) rfl (by decide) (by decide) (by decide)).1,
   (create_backup_failure_entry_persists ⟨some "a", some "b", none, none⟩ "1" 1 0 0 []
      "a" "b" rfl (by decide) rfl (by decide) (by decide) (by decide)).2.2⟩

/-- C6 counterexample: the id `1` exists, but a body whose `name` fails the
update validators (`""` is rejected by `required`) makes the request throw:
500, store untouched, `updatedAt` not increased. -/
theorem update_validation_failure_cex :
    (([⟨1, "a", "b", "general", [], 0, 0⟩] : List VaultEntry).find?
        (fun e => e.id == 1)).isSome = true ∧
    updateHandler "1" ⟨some "", none, none, none⟩ 5 true
        [⟨1, "a", "b", "general", [], 0, 0⟩] =
      { status := 500, body := none,
        store := [⟨1, "a", "b", "general", [], 0, 0⟩], backups := [] } := by
  decide

/-- C6 amended: an update whose body passes validation keeps `id` and
`createdAt` of the target entry unchanged and sets `updatedAt` to the
request clock reading, so it strictly increases whenever the clock has
advanced past the previous `updatedAt` of the entry; with the backup write
succeeding the response is 200 with the updated entry. -/
theorem update_frame_and_updatedAt (idStr : String) (body : ReqBody)
    (tU : Nat) (fsOk : Bool) (store : List VaultEntry) (i : Nat) (e : VaultEntry)
    (hp : parseId idStr = some i)
    (hv : updateValid body = true)
    (hf : store.find? (fun x => x.id == i) = some e) :
    (updateHandler idStr body tU fsOk store).store =
      store.map (fun x => if x.id == i then applyUpdateFields body tU x else x) ∧
    (applyUpdateFields body tU e).id = e.id ∧
    (applyUpdateFields body tU e).createdAt = e.createdAt ∧
    (applyUpdateFields body tU e).updatedAt = tU ∧
    (e.updatedAt < tU → e.updatedAt < (applyUpdateFields body tU e).updatedAt) ∧
    (fsOk = true →
      (updateHandler idStr body tU fsOk store).status = 200 ∧
      (updateHandler idStr body tU fsOk store).body =
        some (applyUpdateFields body tU e)) := by
  refine ⟨?_, rfl, rfl, rfl, fun h => h, fun hok => ?_⟩
  · cases fsOk <;> simp [updateHandler, hp, hv, hf, createBackup]
  · subst hok
    constructor <;> simp [updateHandler, hp, hv, hf, createBackup]

theorem update_frame_and_updatedAt_witness :
    (updateHandler "1" ⟨some "c", none, none, none⟩ 5 true
        [⟨1, "a", "b", "general", [], 0, 0⟩]).store =
      ([⟨1, "a", "b", "general", [], 0, 0⟩] : List VaultEntry).map
        (fun x => if x.id == 1
          then applyUpdateFields ⟨some "c", none, none, none⟩ 5 x else x) ∧
    (applyUpdateFields ⟨some "c", none, none, none⟩ 5
        ⟨1, "a", "b", "general", [], 0, 0⟩).id = 1 ∧
    (0 : Nat) < (applyUpdateFields ⟨some "c", none, none, none⟩ 5
        ⟨1, "a", "b", "general", [], 0, 0⟩).updatedAt :=
  ⟨(update_frame_and_updatedAt "1" ⟨some "c", none, none, none⟩ 5 true
      [⟨1, "a", "b", "general", [], 0, 0⟩] 1 ⟨1, "a", "b", "general", [], 0, 0⟩
      (by decide) (by decide) (by decide)).1,
   (update_frame_and_updatedAt "1" ⟨some "c", none, none, none⟩ 5 true
      [⟨1, "a", "b", "general", [], 0, 0⟩] 1 ⟨1, "a", "b", "general", [], 0, 0⟩
      (by decide) (by decide) (by decide)).2.1,
   (update_frame_and_updatedAt "1" ⟨some "c", none, none, none⟩ 5 true
      [⟨1, "a", "b", "general", [], 0, 0⟩] 1 ⟨1, "a", "b", "general", [], 0, 0⟩
      (by decide) (by decide) (by decide)).2.2.2.2.1 (by decide)⟩

/-- C8: an absent `q` is rejected with 400 and the response carries no
entries: the absent query is not matched against the store. -/
theorem search_absent_q_400 (store : List VaultEntry) :
    searchHandler none store = { status := 400, data := [] } :=
  rfl

theorem tokStart_map_lit (p : List Char) :
    ∀ l : List Char, tokStart (p.map RTok.lit) l = litStart p l := by
  induction p with
  | nil =>
    intro l
    cases l <;> rfl
  | cons a as ih =>
    intro l
    cases l with
    | nil => rfl
    | cons b bs => simp [tokStart, litStart, tokHead, ih]

theorem tokScan_map_lit (p : List Char) :
    ∀ l : List Char, tokScan (p.map RTok.lit) l = litSub p l := by
  intro l
  induction l with
  | nil => simp [tokScan, litSub, tokStart_map_lit]
  | cons c cs ih => simp [tokScan, litSub, tokStart_map_lit, ih]

theorem tokensOf_no_meta (q : String)
    (h : q.data.all (fun c => !regexMeta c) = true) :
    tokensOf q = (q.data.map Char.toLower).map RTok.lit := by
  unfold tokensOf
  rw [List.map_map]
  apply List.map_congr_left
  intro c hc
  have hcm : regexMeta c = false := by
    have := List.all_eq_true.mp h c hc
    simpa using this
  have hdot : c ≠ '.' := by
    intro hEq
    subst hEq
    simp [regexMeta] at hcm
  simp [hdot]

theorem regexITest_eq_substrITest (q : String)
    (h : q.data.all (fun c => !regexMeta c) = true) (s : String) :
    regexITest q s = substrITest q s := by
  unfold regexITest substrITest
  rw [tokensOf_no_meta q h, tokScan_map_lit]

theorem entryMatches_no_meta (q : String)
    (h : q.data.all (fun c => !regexMeta c) = true) (e : VaultEntry) :
    entryMatchesRegex q e = entryMatchesSub q e := by
  have hfn : regexITest q = substrITest q :=
    funext (regexITest_eq_substrITest q h)
  unfold entryMatchesRegex entryMatchesSub
  rw [hfn]

/-- C2 counterexample: the query is fed to `new RegExp(q, "i")` unescaped,
so `q = "."` matches an entry none of whose fields contains `"."` as a
substring — the search is regex matching, not literal substring matching. -/
theorem search_regex_not_literal_cex :
    searchHandler (some ".") [⟨1, "x", "y", "general", [], 0, 0⟩] =
      { status := 200, data := [⟨1, "x", "y", "general", [], 0, 0⟩] } ∧
    entryMatchesSub "." ⟨1, "x", "y", "general", [], 0, 0⟩ = false ∧
    List.filter (fun e => entryMatchesSub "." e)
        [⟨1, "x", "y", "general", [], 0, 0⟩] = [] := by
  decide

/-- C2 amended: for a present, non-empty query containing no regex
metacharacter, the search returns exactly the entries in which the query
occurs as a case-insensitive substring of `name`, `content`, `category`, or
some element of `tags`; queries with metacharacters are instead interpreted
as regular expressions. -/
theorem search_ci_substring_no_meta (q : String) (store : List VaultEntry)
    (hq : q ≠ "") (hm : q.data.all (fun c => !regexMeta c) = true) :
    searchHandler (some q) store =
      { status := 200, data := store.filter (fun e => entryMatchesSub q e) } := by
  unfold searchHandler
  have ht : strTruthy (some q) = true := by
    simp [strTruthy, hq]
  rw [ht]
  simp only [Bool.not_true, Bool.false_eq_true, if_false, Option.getD_some]
  congr 1
  apply List.filter_congr
  intro e _
  exact entryMatches_no_meta q hm e

theorem search_ci_substring_no_meta_witness :
    searchHandler (some "foo") [⟨1, "n", "c", "general", ["Foo"], 0, 0⟩] =
      { status := 200, data := [⟨1, "n", "c", "general", ["Foo"], 0, 0⟩] } := by
  rw [search_ci_substring_no_meta "foo" [⟨1, "n", "c", "general", ["Foo"], 0, 0⟩]
    (by decide) (by decide)]
  decide

/-- C7 counterexample: `?by=` arrives as the empty string, which is present
but falsy, so `if(by)` skips the whole validation and the request succeeds
with the default sort — yet `""` is neither `name` nor `date`, for which the
claim demands a 400. -/
theorem sort_empty_by_200_cex :
    (sortHandler (some "") none []).status = 200 ∧
    (("" == "name") || ("" == "date")) = false := by
  decide

/-- C7 amended: the sort answers 400 exactly when `by` is present,
non-empty and outside `{name, date}`, or `order` is present, non-empty and
outside `{asc, desc}` (an empty-valued parameter is falsy and treated as
unspecified); otherwise it answers 200 with a permutation of the store
sorted by `name` when `by = name` and by `createdAt` otherwise (the
default, also for `date`), ascending exactly when `order = asc` (descending
being the default). -/
theorem sort_validation_and_sorted (byQ orderQ : Option String)
    (store : List VaultEntry) :
    ((sortHandler byQ orderQ store).status = 400 ↔
      (badParam byQ "name" "date" = true ∨ badParam orderQ "asc" "desc" = true)) ∧
    (badParam byQ "name" "date" = false → badParam orderQ "asc" "desc" = false →
      (sortHandler byQ orderQ store).status = 200 ∧
      List.Perm (sortHandler byQ orderQ store).data store ∧
      List.Sorted
        (entryLE (if byQ = some "name" then "name" else "createdAt")
          (orderQ = some "asc"))
        (sortHandler byQ orderQ store).data) := by
  constructor
  · cases h1 : badParam byQ "name" "date" <;>
      cases h2 : badParam orderQ "asc" "desc" <;>
        simp [sortHandler, h1, h2]
  · intro h1 h2
    refine ⟨by simp [sortHandler, h1, h2], ?_, ?_⟩
    · simp only [sortHandler, h1, h2, Bool.false_eq_true, if_false, mongoSort]
      exact List.perm_insertionSort _ _
    · simp only [sortHandler, h1, h2, Bool.false_eq_true, if_false, mongoSort]
      exact List.sorted_insertionSort _ _

theorem sort_validation_and_sorted_witness :
    (sortHandler (some "name") (some "asc")
        [⟨2, "b", "y", "general", [], 1, 1⟩,
         ⟨1, "a", "x", "general", [], 0, 0⟩]).status = 200 ∧
    List.Perm
      (sortHandler (some "name") (some "asc")
        [⟨2, "b", "y", "general", [], 1, 1⟩,
         ⟨1, "a", "x", "general", [], 0, 0⟩]).data
      [⟨2, "b", "y", "general", [], 1, 1⟩,
       ⟨1, "a", "x", "general", [], 0, 0⟩] ∧
    List.Sorted
      (entryLE (if (some "name" : Option String) = some "name" then "name" else "createdAt")
        ((some "asc" : Option String) = some "asc"))
      (sortHandler (some "name") (some "asc")
        [⟨2, "b", "y", "general", [], 1, 1⟩,
         ⟨1, "a", "x", "general", [], 0, 0⟩]).data :=
  (sort_validation_and_sorted (some "name") (some "asc")
      [⟨2, "b", "y", "general", [], 1, 1⟩,
       ⟨1, "a", "x", "general", [], 0, 0⟩]).2 (by decide) (by decide)

/-- C3: a failed `fs.mkdir` at startup is swallowed by the `catch` inside
`ensureBackupsDir`, which only logs it — the `process.exit(1)` path of `startServer` is never reached and the process keeps serving without a backups
directory.  What does hold is the second half of the claim: the absence is
not recovered at backup-call time, where the failing write makes the
request fail instead. -/
theorem backups_dir_failure_not_fatal :
    startServer false = StartOutcome.running false ∧
    ∀ now op trig store, createBackup now op trig false store = .error () :=
  ⟨rfl, fun _ _ _ _ => rfl⟩

theorem deleteHandler_store_sublist (idStr : String) (now : Nat) (fsOk : Bool)
    (store : List VaultEntry) :
    ((deleteHandler idStr now fsOk store).store).Sublist store := by
  unfold deleteHandler
  cases h : findById idStr store with
  | error u => simp
  | ok o =>
    cases o with
    | none => simp
    | some entry =>
      cases fsOk <;> simp [createBackup]
      exact List.eraseP_sublist _

theorem storeInv_sublist {s t : List VaultEntry} (h : t.Sublist s)
    (hs : StoreInv s) : StoreInv t :=
  fun e he => hs e (h.subset he)

theorem createHandler_store_cases (body : ReqBody) (newId tC tS : Nat)
    (fsOk : Bool) (store : List VaultEntry) :
    (createHandler body newId tC tS fsOk store).store = store ∨
    ((createHandler body newId tC tS fsOk store).store =
        store ++ [savedEntry body newId tC tS] ∧
      (savedEntry body newId tC tS).name ≠ "" ∧
      (savedEntry body newId tC tS).content ≠ "") := by
  simp only [createHandler]
  split_ifs with h1 h2
  · exact Or.inl rfl
  · exact Or.inl rfl
  · push_neg at h2
    refine Or.inr ⟨?_, h2.1, h2.2⟩
    cases fsOk <;> simp [createBackup]

theorem updateHandler_store_cases (idStr : String) (body : ReqBody) (tU : Nat)
    (fsOk : Bool) (store : List VaultEntry) :
    (updateHandler idStr body tU fsOk store).store = store ∨
    (updateValid body = true ∧ ∃ i,
      (updateHandler idStr body tU fsOk store).store =
        store.map (fun x => if x.id == i then applyUpdateFields body tU x else x)) := by
  unfold updateHandler
  cases hp : parseId idStr with
  | none => exact Or.inl rfl
  | some i =>
    cases hv : updateValid body with
    | false => simp
    | true =>
      simp only [Bool.not_true, Bool.false_eq_true, if_false]
      cases hf : store.find? (fun e => e.id == i) with
      | none => exact Or.inl rfl
      | some e =>
        refine Or.inr ⟨by simp [hv], i, ?_⟩
        cases fsOk <;> simp [createBackup]

theorem entryWF_applyUpdateFields (body : ReqBody) (tU : Nat) (x : VaultEntry)
    (hv : updateValid body = true) (hx : entryWF x) (htx : x.createdAt ≤ tU) :
    entryWF (applyUpdateFields body tU x) := by
  obtain ⟨h1, h2, _⟩ := hx
  unfold updateValid at hv
  rw [Bool.and_eq_true] at hv
  refine ⟨?_, ?_, ?_⟩
  · cases hb : body.name with
    | none => simpa [applyUpdateFields, hb] using h1
    | some s =>
      have hv1 := hv.1
      rw [hb] at hv1
      simp only [bne_iff_ne, ne_eq] at hv1
      simpa [applyUpdateFields, hb] using hv1
  · cases hc : body.content with
    | none => simpa [applyUpdateFields, hc] using h2
    | some c =>
      have hv2 := hv.2
      rw [hc] at hv2
      simp only [bne_iff_ne, ne_eq] at hv2
      simpa [applyUpdateFields, hc] using hv2
  · simpa [applyUpdateFields] using htx

theorem applyOp_preserves_inv (o : ApiOp) (s : List VaultEntry)
    (hs : StoreInv s) (ht : OpTimeOk o s) : StoreInv (applyOp o s) := by
  cases o with
  | create body newId tC tS fsOk =>
    rcases createHandler_store_cases body newId tC tS fsOk s with h | ⟨h, hn, hc⟩
    · simp only [applyOp]
      rw [h]
      exact hs
    · intro e he
      simp only [applyOp] at he
      rw [h] at he
      rcases List.mem_append.mp he with h' | h'
      · exact hs e h'
      · have := List.mem_singleton.mp h'
        subst this
        exact ⟨hn, hc, ht⟩
  | update idStr body tU fsOk =>
    rcases updateHandler_store_cases idStr body tU fsOk s with h | ⟨hv, i, h⟩
    · simp only [applyOp]
      rw [h]
      exact hs
    · intro e he
      simp only [applyOp] at he
      rw [h] at he
      rcases List.mem_map.mp he with ⟨x, hx, rfl⟩
      by_cases hxi : (x.id == i) = true
      · rw [if_pos hxi]
        exact entryWF_applyUpdateFields body tU x hv (hs x hx) (ht x hx)
      · rw [if_neg hxi]
        exact hs x hx
  | del idStr now fsOk =>
    exact storeInv_sublist (deleteHandler_store_sublist idStr now fsOk s) hs

/-- C5: starting from any store satisfying the data-model invariant (for
instance the empty one) and running any sequence of create, update and
delete requests whose clock readings are consistent (the two reads of a
create are ordered, and no update reading predates the creation of a stored
entry), every entry of the resulting store — hence every entry reachable
through the public API — has a non-empty `name` and `content` and
`updatedAt ≥ createdAt`. -/
theorem api_reachable_invariant (ops : List ApiOp) (store : List VaultEntry)
    (h0 : StoreInv store) (hseq : SeqTimeOk ops store) :
    StoreInv (applySeq ops store) := by
  induction ops generalizing store with
  | nil => exact h0
  | cons o os ih =>
    obtain ⟨h1, h2⟩ := hseq
    exact ih (applyOp o store) (applyOp_preserves_inv o store h0 h1) h2

theorem api_reachable_invariant_witness :
    StoreInv (applySeq
      [ApiOp.create ⟨some "a", some "b", none, none⟩ 1 0 0 true,
       ApiOp.update "1" ⟨some "c", none, none, none⟩ 2 true,
       ApiOp.del "1" 3 true] []) :=
  api_reachable_invariant
    [ApiOp.create ⟨some "a", some "b", none, none⟩ 1 0 0 true,
     ApiOp.update "1" ⟨some "c", none, none, none⟩ 2 true,
     ApiOp.del "1" 3 true] [] (by decide) (by decide)
